import Mathlib

/-!
Shallow embedding of the transaction/ledger engine of `src/bank.rs`
(`Bank`, `Bank::batch_process`, `Bank::process_transaction`,
`Bank::get_transaction_with_status`, `Bank::get_account`).

Monetary amounts (`f32` in the source) are modelled as exact rationals `ℚ`:
the engine only adds, subtracts and compares amounts, and the specification
treats them as exact decimals.  The `Vec<Account>` is a `List Account`, the
`HashMap<u32, TransactionRecord>` is an association list with overwriting
insert; `u16`/`u32` identifiers are `Nat`.  A `panic!` (the `.expect` calls)
is a distinguished outcome `ProcResult.panicked`, and the `Err` return of
`process_transaction` (which aborts the batch) is `ProcResult.fatal`.

Two arithmetic layers are developed.  `Bank.process_transaction` performs
exact rational arithmetic: the idealization in which the decimal amounts of
the specification never round.  `Bank.process_transaction_f32` is the same
engine with every balance addition and subtraction rounded by `round32`,
the round-to-nearest (ties to even) rounding at 24 significant bits that
IEEE-754 binary32 (`f32`, the source's balance type) performs on every
finite result in the normal range; properties whose truth depends on the
rounding of `f32` are settled against this model.
-/

namespace RsBank

/-- `enum TransactionType` from `bank.rs`. -/
inductive TransactionType where
  | deposit
  | withdrawal
  | dispute
  | resolve
  | chargeback
  deriving DecidableEq

/-- `enum TransactionStatus` from `bank.rs`. -/
inductive TransactionStatus where
  | processed
  | disputed
  deriving DecidableEq

/-- `struct Transaction` from `bank.rs` (amount as exact rational). -/
structure Transaction where
  tx_type : TransactionType
  client_id : Nat
  id : Nat
  amount : Option ℚ
  deriving DecidableEq

/-- `type TransactionRecord = (Transaction, TransactionStatus)`. -/
abbrev TransactionRecord := Transaction × TransactionStatus

/-- `struct Account` from `bank.rs`. -/
structure Account where
  client_id : Nat
  available : ℚ
  held : ℚ
  total : ℚ
  locked : Bool
  deriving DecidableEq

/-- `Account::new`: zero balances, unlocked. -/
def Account.new (client_id : Nat) : Account :=
  { client_id := client_id, available := 0, held := 0, total := 0, locked := false }

/-- `struct Bank`: the `Vec<Account>` and the `HashMap<u32, TransactionRecord>`. -/
structure Bank where
  accounts : List Account
  transactions : List (Nat × TransactionRecord)
  deriving DecidableEq

/-- `Bank::new`: empty ledger. -/
def Bank.new : Bank := { accounts := [], transactions := [] }

/-- `const INVALID_TRANSACTION_DATA_NO_AMOUNT` from `bank.rs`. -/
def INVALID_TRANSACTION_DATA_NO_AMOUNT : String :=
  "Invalid transaction data: missing amount"

/-- Result of `process_transaction` with the mutated bank made explicit:
`ok` models `Ok(())`, `fatal` models the `Err(String)` return (missing
amount), `panicked` models a `panic!` from one of the `.expect` calls. -/
inductive ProcResult where
  | ok (bank : Bank)
  | fatal (msg : String) (bank : Bank)
  | panicked
  deriving DecidableEq

/-- `Bank::get_account` on the accounts vector: find the position of the
first account with the given client id and `Vec::remove` it, returning the
removed account (if any) together with the remaining vector. -/
def get_account : List Account → Nat → Option Account × List Account
  | [], _ => (none, [])
  | a :: rest, client_id =>
    if a.client_id = client_id then
      (some a, rest)
    else
      let r := get_account rest client_id
      (r.1, a :: r.2)

/-- `HashMap::get`-style lookup on the association list. -/
def lookupTx : List (Nat × TransactionRecord) → Nat → Option TransactionRecord
  | [], _ => none
  | (k, v) :: rest, i => if k = i then some v else lookupTx rest i

/-- `HashMap::remove` on the association list (drops the entry for the key). -/
def removeTx : List (Nat × TransactionRecord) → Nat → List (Nat × TransactionRecord)
  | [], _ => []
  | p :: rest, i => if p.1 = i then removeTx rest i else p :: removeTx rest i

/-- `HashMap::insert` on the association list (overwrites the key). -/
def insertTx (m : List (Nat × TransactionRecord)) (i : Nat) (r : TransactionRecord) :
    List (Nat × TransactionRecord) :=
  (i, r) :: removeTx m i

/-- `Bank::get_transaction_with_status`: `remove` the record for `tx_id`
from the map, then check client id and status; errors are returned without
re-inserting the removed record.  Returns the result together with the map
as the call leaves it. -/
def get_transaction_with_status (m : List (Nat × TransactionRecord))
    (account : Account) (tx_id : Nat) (desired_status : TransactionStatus) :
    Except String TransactionRecord × List (Nat × TransactionRecord) :=
  match lookupTx m tx_id with
  | none => (.error ("Transaction #" ++ toString tx_id ++ " not found"), m)
  | some target_tx =>
    let m' := removeTx m tx_id
    if target_tx.1.client_id ≠ account.client_id then
      (.error ("Transaction #" ++ toString tx_id ++ " does not have matching client id"), m')
    else if desired_status ≠ target_tx.2 then
      (.error ("Transaction #" ++ toString tx_id ++ " not in desired state"), m')
    else
      (.ok target_tx, m')

/-- `Bank::process_transaction` from `bank.rs`.  The account is removed from
the vector up front (`get_account`, or `Account::new` when absent), mutated
by the matching arm, and pushed to the back of the vector; the missing-amount
`?` returns `fatal` before the push. -/
def Bank.process_transaction (b : Bank) (tx : Transaction) : ProcResult :=
  let found := get_account b.accounts tx.client_id
  let account := found.1.getD (Account.new tx.client_id)
  let tx_id := tx.id
  match tx.tx_type with
  | .deposit =>
    match tx.amount with
    | none => .fatal INVALID_TRANSACTION_DATA_NO_AMOUNT
        { accounts := found.2, transactions := b.transactions }
    | some to_deposit =>
      let account := { account with
        available := account.available + to_deposit,
        total := account.total + to_deposit }
      .ok { accounts := found.2 ++ [account],
            transactions := insertTx b.transactions tx_id (tx, .processed) }
  | .withdrawal =>
    match tx.amount with
    | none => .fatal INVALID_TRANSACTION_DATA_NO_AMOUNT
        { accounts := found.2, transactions := b.transactions }
    | some to_withdraw =>
      if to_withdraw ≤ account.available then
        let account := { account with
          available := account.available - to_withdraw,
          total := account.total - to_withdraw }
        .ok { accounts := found.2 ++ [account],
              transactions := insertTx b.transactions tx_id (tx, .processed) }
      else
        .ok { accounts := found.2 ++ [account], transactions := b.transactions }
  | .dispute =>
    match get_transaction_with_status b.transactions account tx_id .processed with
    | (.ok target_tx, m') =>
      match target_tx.1.amount with
      | none => .panicked
      | some tx_amount =>
        let account := { account with
          held := account.held + tx_amount,
          available := account.available - tx_amount }
        .ok { accounts := found.2 ++ [account],
              transactions := insertTx m' tx_id (target_tx.1, .disputed) }
    | (.error _, m') =>
      .ok { accounts := found.2 ++ [account], transactions := m' }
  | .resolve =>
    match get_transaction_with_status b.transactions account tx_id .disputed with
    | (.ok target_tx, m') =>
      match target_tx.1.amount with
      | none => .panicked
      | some tx_amount =>
        let account := { account with
          held := account.held - tx_amount,
          available := account.available + tx_amount }
        .ok { accounts := found.2 ++ [account],
              transactions := insertTx m' tx_id (target_tx.1, .processed) }
    | (.error _, m') =>
      .ok { accounts := found.2 ++ [account], transactions := m' }
  | .chargeback =>
    match get_transaction_with_status b.transactions account tx_id .disputed with
    | (.ok target_tx, m') =>
      match target_tx.1.amount with
      | none => .panicked
      | some tx_amount =>
        let account := { account with
          held := account.held - tx_amount,
          total := account.total - tx_amount,
          locked := true }
        .ok { accounts := found.2 ++ [account],
              transactions := insertTx m' tx_id (target_tx.1, .processed) }
    | (.error _, m') =>
      .ok { accounts := found.2 ++ [account], transactions := m' }

/-- `Bank::batch_process`: process the transactions in order, stopping at
the first fatal error (or panic). -/
def Bank.batch_process (b : Bank) : List Transaction → ProcResult
  | [] => .ok b
  | tx :: rest =>
    match b.process_transaction tx with
    | .ok b2 => b2.batch_process rest
    | .fatal msg b2 => .fatal msg b2
    | .panicked => .panicked

/-- The bank state carried by a (non-panicking) result. -/
def resultBank : ProcResult → Option Bank
  | .ok b => some b
  | .fatal _ b => some b
  | .panicked => none

/-- Desired status of the looked-up record for each dispute-family arm of
`process_transaction` (`none` for deposit/withdrawal). -/
def dispute_family_desired : TransactionType → Option TransactionStatus
  | .dispute => some .processed
  | .resolve => some .disputed
  | .chargeback => some .disputed
  | _ => none

/-- The account `process_transaction` works on: the one removed from the
vector by `get_account`, or a fresh `Account::new` when absent. -/
def resolved_account (b : Bank) (c : Nat) : Account :=
  (get_account b.accounts c).1.getD (Account.new c)
/-- `total == available + held` for every account of the bank. -/
def AccountsBalanced (b : Bank) : Prop :=
  ∀ a ∈ b.accounts, a.total = a.available + a.held
/-- At most one account per client id. -/
def ClientsUnique (b : Bank) : Prop :=
  (b.accounts.map Account.client_id).Nodup
/-- Every stored transaction record carries an amount. -/
def RecordsHaveAmount (b : Bank) : Prop :=
  ∀ i rec, lookupTx b.transactions i = some rec → rec.1.amount.isSome = true

/-- Base-2 floor logarithm on naturals. -/
def floorLog2Nat (n : Nat) : Nat :=
  if h : 2 ≤ n then floorLog2Nat (n / 2) + 1 else 0
  termination_by n
  decreasing_by exact Nat.div_lt_self (by omega) (by omega)

/-- Floor of the base-2 logarithm of a positive rational. -/
def floorLog2 (q : ℚ) : ℤ :=
  if q.den ≤ q.num.natAbs then (floorLog2Nat (q.num.natAbs / q.den) : ℤ)
  else if q.den = q.num.natAbs * 2 ^ floorLog2Nat (q.den / q.num.natAbs) then
    -(floorLog2Nat (q.den / q.num.natAbs) : ℤ)
  else
    -(floorLog2Nat (q.den / q.num.natAbs) : ℤ) - 1

/-- Floor of a rational: Euclidean division of the numerator by the positive
denominator rounds toward negative infinity. -/
def ratFloor (x : ℚ) : ℤ := Int.ediv x.num (x.den : ℤ)

/-- Round a rational to the nearest integer, ties to even. -/
def roundTiesEven (x : ℚ) : ℤ :=
  if x - ratFloor x < 1/2 then ratFloor x
  else if (1 : ℚ)/2 < x - ratFloor x then ratFloor x + 1
  else if ratFloor x % 2 = 0 then ratFloor x else ratFloor x + 1

/-- Round a nonnegative rational to 24 significant bits (round to nearest,
ties to even): the significand `q / 2 ^ (⌊log2 q⌋ - 23)` lies in
`[2^23, 2^24)` and is rounded to an integer. -/
def round32Pos (q : ℚ) : ℚ :=
  if q = 0 then 0
  else roundTiesEven (q / 2 ^ (floorLog2 q - 23)) * 2 ^ (floorLog2 q - 23)

/-- Round to nearest, ties to even, at 24 significant bits: the rounding
IEEE-754 binary32 (`f32`) arithmetic performs on every finite result in the
normal range (unbounded exponent, so no overflow or subnormal clamping). -/
def round32 (q : ℚ) : ℚ :=
  if q < 0 then -round32Pos (-q) else round32Pos q

/-- `f32` addition: exact sum, then binary32 rounding. -/
def addF32 (x y : ℚ) : ℚ := round32 (x + y)

/-- `f32` subtraction: exact difference, then binary32 rounding. -/
def subF32 (x y : ℚ) : ℚ := round32 (x - y)

/-- `Bank::process_transaction` under `f32` semantics: identical to
`Bank.process_transaction` except every `+=`/`-=` on balances is the rounded
`addF32`/`subF32` (comparisons of stored `f32` values are exact). -/
def Bank.process_transaction_f32 (b : Bank) (tx : Transaction) : ProcResult :=
  let found := get_account b.accounts tx.client_id
  let account := found.1.getD (Account.new tx.client_id)
  let tx_id := tx.id
  match tx.tx_type with
  | .deposit =>
    match tx.amount with
    | none => .fatal INVALID_TRANSACTION_DATA_NO_AMOUNT
        { accounts := found.2, transactions := b.transactions }
    | some to_deposit =>
      let account := { account with
        available := addF32 account.available to_deposit,
        total := addF32 account.total to_deposit }
      .ok { accounts := found.2 ++ [account],
            transactions := insertTx b.transactions tx_id (tx, .processed) }
  | .withdrawal =>
    match tx.amount with
    | none => .fatal INVALID_TRANSACTION_DATA_NO_AMOUNT
        { accounts := found.2, transactions := b.transactions }
    | some to_withdraw =>
      if to_withdraw ≤ account.available then
        let account := { account with
          available := subF32 account.available to_withdraw,
          total := subF32 account.total to_withdraw }
        .ok { accounts := found.2 ++ [account],
              transactions := insertTx b.transactions tx_id (tx, .processed) }
      else
        .ok { accounts := found.2 ++ [account], transactions := b.transactions }
  | .dispute =>
    match get_transaction_with_status b.transactions account tx_id .processed with
    | (.ok target_tx, m2) =>
      match target_tx.1.amount with
      | none => .panicked
      | some tx_amount =>
        let account := { account with
          held := addF32 account.held tx_amount,
          available := subF32 account.available tx_amount }
        .ok { accounts := found.2 ++ [account],
              transactions := insertTx m2 tx_id (target_tx.1, .disputed) }
    | (.error _, m2) =>
      .ok { accounts := found.2 ++ [account], transactions := m2 }
  | .resolve =>
    match get_transaction_with_status b.transactions account tx_id .disputed with
    | (.ok target_tx, m2) =>
      match target_tx.1.amount with
      | none => .panicked
      | some tx_amount =>
        let account := { account with
          held := subF32 account.held tx_amount,
          available := addF32 account.available tx_amount }
        .ok { accounts := found.2 ++ [account],
              transactions := insertTx m2 tx_id (target_tx.1, .processed) }
    | (.error _, m2) =>
      .ok { accounts := found.2 ++ [account], transactions := m2 }
  | .chargeback =>
    match get_transaction_with_status b.transactions account tx_id .disputed with
    | (.ok target_tx, m2) =>
      match target_tx.1.amount with
      | none => .panicked
      | some tx_amount =>
        let account := { account with
          held := subF32 account.held tx_amount,
          total := subF32 account.total tx_amount,
          locked := true }
        .ok { accounts := found.2 ++ [account],
              transactions := insertTx m2 tx_id (target_tx.1, .processed) }
    | (.error _, m2) =>
      .ok { accounts := found.2 ++ [account], transactions := m2 }

/-- `Bank::batch_process` under `f32` semantics. -/
def Bank.batch_process_f32 (b : Bank) : List Transaction → ProcResult
  | [] => .ok b
  | tx :: rest =>
    match b.process_transaction_f32 tx with
    | .ok b2 => b2.batch_process_f32 rest
    | .fatal msg b2 => .fatal msg b2
    | .panicked => .panicked

theorem get_account_snd_subset (l : List Account) (c : Nat) :
    ∀ a ∈ (get_account l c).2, a ∈ l := by
  induction l with
  | nil => simp [get_account]
  | cons x rest ih =>
    by_cases hx : x.client_id = c
    · simp only [get_account, if_pos hx]
      intro a ha
      exact List.mem_cons_of_mem x ha
    · simp only [get_account, if_neg hx]
      intro a ha
      rcases List.mem_cons.mp ha with h | h
      · exact h ▸ List.mem_cons_self x rest
      · exact List.mem_cons_of_mem x (ih a h)

theorem get_account_fst_mem (l : List Account) (c : Nat) (a : Account)
    (h : (get_account l c).1 = some a) : a ∈ l := by
  induction l with
  | nil => simp [get_account] at h
  | cons x rest ih =>
    by_cases hx : x.client_id = c
    · simp only [get_account, if_pos hx, Option.some.injEq] at h
      exact h ▸ List.mem_cons_self x rest
    · simp only [get_account, if_neg hx] at h
      exact List.mem_cons_of_mem x (ih h)

theorem get_account_fst_client (l : List Account) (c : Nat) (a : Account)
    (h : (get_account l c).1 = some a) : a.client_id = c := by
  induction l with
  | nil => simp [get_account] at h
  | cons x rest ih =>
    by_cases hx : x.client_id = c
    · simp only [get_account, if_pos hx, Option.some.injEq] at h
      exact h ▸ hx
    · simp only [get_account, if_neg hx] at h
      exact ih h

theorem get_account_sublist (l : List Account) (c : Nat) :
    (get_account l c).2.Sublist l := by
  induction l with
  | nil => simp [get_account]
  | cons x rest ih =>
    by_cases hx : x.client_id = c
    · simp only [get_account, if_pos hx]
      exact (List.sublist_cons_self x rest)
    · simp only [get_account, if_neg hx]
      exact List.Sublist.cons₂ x ih

theorem get_account_of_not_mem (l : List Account) (c : Nat)
    (h : ∀ a ∈ l, a.client_id ≠ c) : get_account l c = (none, l) := by
  induction l with
  | nil => simp [get_account]
  | cons x rest ih =>
    have hx : x.client_id ≠ c := h x (List.mem_cons_self x rest)
    simp only [get_account, if_neg hx]
    rw [ih fun a ha => h a (List.mem_cons_of_mem x ha)]

theorem get_account_append_of_not_mem (l : List Account) (c : Nat) (A : Account)
    (h : ∀ a ∈ l, a.client_id ≠ c) (hA : A.client_id = c) :
    get_account (l ++ [A]) c = (some A, l) := by
  induction l with
  | nil => simp [get_account, hA]
  | cons x rest ih =>
    have hx : x.client_id ≠ c := h x (List.mem_cons_self x rest)
    simp only [List.cons_append, get_account, if_neg hx]
    rw [show rest.append [A] = rest ++ [A] from rfl,
      ih fun a ha => h a (List.mem_cons_of_mem x ha)]

theorem get_account_snd_not_client (l : List Account) (c : Nat)
    (hnd : (l.map Account.client_id).Nodup) :
    ∀ a ∈ (get_account l c).2, a.client_id ≠ c := by
  induction l with
  | nil => simp [get_account]
  | cons x rest ih =>
    simp only [List.map_cons, List.nodup_cons] at hnd
    by_cases hx : x.client_id = c
    · simp only [get_account, if_pos hx]
      intro a ha hac
      exact hnd.1 (hx ▸ hac ▸ List.mem_map_of_mem Account.client_id ha)
    · simp only [get_account, if_neg hx]
      intro a ha
      rcases List.mem_cons.mp ha with h | h
      · exact h ▸ hx
      · exact ih hnd.2 a h

theorem get_account_resolved_client (l : List Account) (c : Nat) :
    ((get_account l c).1.getD (Account.new c)).client_id = c := by
  cases hf : (get_account l c).1 with
  | none => simp [Account.new]
  | some a => simpa using get_account_fst_client l c a hf

theorem lookupTx_removeTx (m : List (Nat × TransactionRecord)) (i j : Nat) :
    lookupTx (removeTx m i) j = if j = i then none else lookupTx m j := by
  induction m with
  | nil => simp [removeTx, lookupTx]
  | cons p rest ih =>
    by_cases hp : p.1 = i
    · rw [removeTx, if_pos hp, ih]
      by_cases hj : j = i
      · simp [hj]
      · rw [if_neg hj, if_neg hj, lookupTx, if_neg (by omega : ¬ p.1 = j)]
    · rw [removeTx, if_neg hp]
      by_cases hj : j = i
      · rw [if_pos hj, lookupTx, if_neg (by omega : ¬ p.1 = j), ih, if_pos hj]
      · rw [if_neg hj, lookupTx, lookupTx, ih, if_neg hj]

theorem lookupTx_insertTx_self (m : List (Nat × TransactionRecord)) (i : Nat)
    (r : TransactionRecord) : lookupTx (insertTx m i r) i = some r := by
  simp [insertTx, lookupTx]

theorem lookupTx_insertTx_ne (m : List (Nat × TransactionRecord)) (i j : Nat)
    (r : TransactionRecord) (h : j ≠ i) :
    lookupTx (insertTx m i r) j = lookupTx m j := by
  simp only [insertTx, lookupTx]
  rw [if_neg (fun hij => h hij.symm), lookupTx_removeTx, if_neg h]

theorem lookupTx_removeTx_some (m : List (Nat × TransactionRecord)) (i j : Nat)
    (r : TransactionRecord) (h : lookupTx (removeTx m i) j = some r) :
    lookupTx m j = some r := by
  rw [lookupTx_removeTx] at h
  by_cases hj : j = i
  · simp [hj] at h
  · simpa [hj] using h

theorem resolved_account_client (b : Bank) (c : Nat) :
    (resolved_account b c).client_id = c :=
  get_account_resolved_client b.accounts c

theorem gtws_of_none (m : List (Nat × TransactionRecord)) (a : Account) (i : Nat)
    (d : TransactionStatus) (h : lookupTx m i = none) :
    get_transaction_with_status m a i d =
      (.error ("Transaction #" ++ toString i ++ " not found"), m) := by
  simp only [get_transaction_with_status, h]

theorem gtws_of_client_ne (m : List (Nat × TransactionRecord)) (a : Account) (i : Nat)
    (d : TransactionStatus) (rec : TransactionRecord)
    (h : lookupTx m i = some rec) (hc : rec.1.client_id ≠ a.client_id) :
    get_transaction_with_status m a i d =
      (.error ("Transaction #" ++ toString i ++ " does not have matching client id"),
        removeTx m i) := by
  unfold get_transaction_with_status
  rw [h]
  exact if_pos hc

theorem gtws_of_status_ne (m : List (Nat × TransactionRecord)) (a : Account) (i : Nat)
    (d : TransactionStatus) (rec : TransactionRecord)
    (h : lookupTx m i = some rec) (hc : rec.1.client_id = a.client_id) (hs : d ≠ rec.2) :
    get_transaction_with_status m a i d =
      (.error ("Transaction #" ++ toString i ++ " not in desired state"),
        removeTx m i) := by
  unfold get_transaction_with_status
  rw [h]
  simp only [ne_eq]
  rw [if_neg (not_not_intro hc), if_pos hs]

theorem gtws_of_found (m : List (Nat × TransactionRecord)) (a : Account) (i : Nat)
    (d : TransactionStatus) (rec : TransactionRecord)
    (h : lookupTx m i = some rec) (hc : rec.1.client_id = a.client_id) (hs : d = rec.2) :
    get_transaction_with_status m a i d = (.ok rec, removeTx m i) := by
  unfold get_transaction_with_status
  rw [h]
  simp only [ne_eq]
  rw [if_neg (not_not_intro hc), if_neg (not_not_intro hs)]

theorem gtws_fst_ok (m : List (Nat × TransactionRecord)) (a : Account) (i : Nat)
    (d : TransactionStatus) (rec : TransactionRecord) (m' : List (Nat × TransactionRecord))
    (h : get_transaction_with_status m a i d = (.ok rec, m')) :
    lookupTx m i = some rec ∧ rec.1.client_id = a.client_id ∧ rec.2 = d ∧
      m' = removeTx m i := by
  cases hl : lookupTx m i with
  | none => rw [gtws_of_none m a i d hl] at h; simp at h
  | some r =>
    by_cases hc : r.1.client_id = a.client_id
    · by_cases hs : d = r.2
      · rw [gtws_of_found m a i d r hl hc hs] at h
        simp only [Prod.mk.injEq, Except.ok.injEq] at h
        obtain ⟨rfl, rfl⟩ := h
        exact ⟨rfl, hc, hs.symm, rfl⟩
      · rw [gtws_of_status_ne m a i d r hl hc hs] at h; simp at h
    · rw [gtws_of_client_ne m a i d r hl hc] at h; simp at h

theorem gtws_snd_cases (m : List (Nat × TransactionRecord)) (a : Account) (i : Nat)
    (d : TransactionStatus) :
    (get_transaction_with_status m a i d).2 = m ∨
      (get_transaction_with_status m a i d).2 = removeTx m i := by
  unfold get_transaction_with_status
  cases lookupTx m i with
  | none => exact Or.inl rfl
  | some r =>
    simp only [ne_eq]
    by_cases hc : r.1.client_id = a.client_id
    · rw [if_neg (not_not_intro hc)]
      by_cases hs : d = r.2
      · rw [if_neg (not_not_intro hs)]
        exact Or.inr rfl
      · rw [if_pos hs]
        exact Or.inr rfl
    · rw [if_pos hc]
      exact Or.inr rfl

theorem process_deposit_missing (b : Bank) (tx : Transaction)
    (hty : tx.tx_type = .deposit) (ham : tx.amount = none) :
    b.process_transaction tx = .fatal INVALID_TRANSACTION_DATA_NO_AMOUNT
      { accounts := (get_account b.accounts tx.client_id).2,
        transactions := b.transactions } := by
  simp only [Bank.process_transaction, hty, ham]

theorem process_withdrawal_missing (b : Bank) (tx : Transaction)
    (hty : tx.tx_type = .withdrawal) (ham : tx.amount = none) :
    b.process_transaction tx = .fatal INVALID_TRANSACTION_DATA_NO_AMOUNT
      { accounts := (get_account b.accounts tx.client_id).2,
        transactions := b.transactions } := by
  simp only [Bank.process_transaction, hty, ham]

theorem process_deposit (b : Bank) (tx : Transaction) (amt : ℚ)
    (hty : tx.tx_type = .deposit) (ham : tx.amount = some amt) :
    b.process_transaction tx = .ok
      { accounts := (get_account b.accounts tx.client_id).2 ++
          [{ resolved_account b tx.client_id with
              available := (resolved_account b tx.client_id).available + amt,
              total := (resolved_account b tx.client_id).total + amt }],
        transactions := insertTx b.transactions tx.id (tx, .processed) } := by
  simp only [Bank.process_transaction, resolved_account, hty, ham]

theorem process_withdrawal_le (b : Bank) (tx : Transaction) (amt : ℚ)
    (hty : tx.tx_type = .withdrawal) (ham : tx.amount = some amt)
    (hle : amt ≤ (resolved_account b tx.client_id).available) :
    b.process_transaction tx = .ok
      { accounts := (get_account b.accounts tx.client_id).2 ++
          [{ resolved_account b tx.client_id with
              available := (resolved_account b tx.client_id).available - amt,
              total := (resolved_account b tx.client_id).total - amt }],
        transactions := insertTx b.transactions tx.id (tx, .processed) } := by
  simp only [resolved_account] at hle
  simp only [Bank.process_transaction, resolved_account, hty, ham, if_pos hle]

theorem process_withdrawal_gt (b : Bank) (tx : Transaction) (amt : ℚ)
    (hty : tx.tx_type = .withdrawal) (ham : tx.amount = some amt)
    (hgt : (resolved_account b tx.client_id).available < amt) :
    b.process_transaction tx = .ok
      { accounts := (get_account b.accounts tx.client_id).2 ++
          [resolved_account b tx.client_id],
        transactions := b.transactions } := by
  simp only [resolved_account] at hgt
  simp only [Bank.process_transaction, resolved_account, hty, ham, if_neg (not_le.mpr hgt)]

theorem process_dispute_found (b : Bank) (tx : Transaction) (rec : TransactionRecord)
    (m' : List (Nat × TransactionRecord)) (amt : ℚ)
    (hty : tx.tx_type = .dispute)
    (hgw : get_transaction_with_status b.transactions (resolved_account b tx.client_id)
        tx.id .processed = (.ok rec, m'))
    (ham : rec.1.amount = some amt) :
    b.process_transaction tx = .ok
      { accounts := (get_account b.accounts tx.client_id).2 ++
          [{ resolved_account b tx.client_id with
              held := (resolved_account b tx.client_id).held + amt,
              available := (resolved_account b tx.client_id).available - amt }],
        transactions := insertTx m' tx.id (rec.1, .disputed) } := by
  simp only [resolved_account] at hgw
  simp only [Bank.process_transaction, resolved_account, hty, hgw, ham]

theorem process_dispute_err (b : Bank) (tx : Transaction) (e : String)
    (m' : List (Nat × TransactionRecord))
    (hty : tx.tx_type = .dispute)
    (hgw : get_transaction_with_status b.transactions (resolved_account b tx.client_id)
        tx.id .processed = (.error e, m')) :
    b.process_transaction tx = .ok
      { accounts := (get_account b.accounts tx.client_id).2 ++
          [resolved_account b tx.client_id],
        transactions := m' } := by
  simp only [resolved_account] at hgw
  simp only [Bank.process_transaction, resolved_account, hty, hgw]

theorem process_dispute_found_missing (b : Bank) (tx : Transaction)
    (rec : TransactionRecord) (m' : List (Nat × TransactionRecord))
    (hty : tx.tx_type = .dispute)
    (hgw : get_transaction_with_status b.transactions (resolved_account b tx.client_id)
        tx.id .processed = (.ok rec, m'))
    (ham : rec.1.amount = none) :
    b.process_transaction tx = .panicked := by
  simp only [resolved_account] at hgw
  simp only [Bank.process_transaction, resolved_account, hty, hgw, ham]

theorem process_resolve_found (b : Bank) (tx : Transaction) (rec : TransactionRecord)
    (m' : List (Nat × TransactionRecord)) (amt : ℚ)
    (hty : tx.tx_type = .resolve)
    (hgw : get_transaction_with_status b.transactions (resolved_account b tx.client_id)
        tx.id .disputed = (.ok rec, m'))
    (ham : rec.1.amount = some amt) :
    b.process_transaction tx = .ok
      { accounts := (get_account b.accounts tx.client_id).2 ++
          [{ resolved_account b tx.client_id with
              held := (resolved_account b tx.client_id).held - amt,
              available := (resolved_account b tx.client_id).available + amt }],
        transactions := insertTx m' tx.id (rec.1, .processed) } := by
  simp only [resolved_account] at hgw
  simp only [Bank.process_transaction, resolved_account, hty, hgw, ham]

theorem process_resolve_err (b : Bank) (tx : Transaction) (e : String)
    (m' : List (Nat × TransactionRecord))
    (hty : tx.tx_type = .resolve)
    (hgw : get_transaction_with_status b.transactions (resolved_account b tx.client_id)
        tx.id .disputed = (.error e, m')) :
    b.process_transaction tx = .ok
      { accounts := (get_account b.accounts tx.client_id).2 ++
          [resolved_account b tx.client_id],
        transactions := m' } := by
  simp only [resolved_account] at hgw
  simp only [Bank.process_transaction, resolved_account, hty, hgw]

theorem process_resolve_found_missing (b : Bank) (tx : Transaction)
    (rec : TransactionRecord) (m' : List (Nat × TransactionRecord))
    (hty : tx.tx_type = .resolve)
    (hgw : get_transaction_with_status b.transactions (resolved_account b tx.client_id)
        tx.id .disputed = (.ok rec, m'))
    (ham : rec.1.amount = none) :
    b.process_transaction tx = .panicked := by
  simp only [resolved_account] at hgw
  simp only [Bank.process_transaction, resolved_account, hty, hgw, ham]

theorem process_chargeback_found (b : Bank) (tx : Transaction) (rec : TransactionRecord)
    (m' : List (Nat × TransactionRecord)) (amt : ℚ)
    (hty : tx.tx_type = .chargeback)
    (hgw : get_transaction_with_status b.transactions (resolved_account b tx.client_id)
        tx.id .disputed = (.ok rec, m'))
    (ham : rec.1.amount = some amt) :
    b.process_transaction tx = .ok
      { accounts := (get_account b.accounts tx.client_id).2 ++
          [{ resolved_account b tx.client_id with
              held := (resolved_account b tx.client_id).held - amt,
              total := (resolved_account b tx.client_id).total - amt,
              locked := true }],
        transactions := insertTx m' tx.id (rec.1, .processed) } := by
  simp only [resolved_account] at hgw
  simp only [Bank.process_transaction, resolved_account, hty, hgw, ham]

theorem process_chargeback_err (b : Bank) (tx : Transaction) (e : String)
    (m' : List (Nat × TransactionRecord))
    (hty : tx.tx_type = .chargeback)
    (hgw : get_transaction_with_status b.transactions (resolved_account b tx.client_id)
        tx.id .disputed = (.error e, m')) :
    b.process_transaction tx = .ok
      { accounts := (get_account b.accounts tx.client_id).2 ++
          [resolved_account b tx.client_id],
        transactions := m' } := by
  simp only [resolved_account] at hgw
  simp only [Bank.process_transaction, resolved_account, hty, hgw]

theorem process_chargeback_found_missing (b : Bank) (tx : Transaction)
    (rec : TransactionRecord) (m' : List (Nat × TransactionRecord))
    (hty : tx.tx_type = .chargeback)
    (hgw : get_transaction_with_status b.transactions (resolved_account b tx.client_id)
        tx.id .disputed = (.ok rec, m'))
    (ham : rec.1.amount = none) :
    b.process_transaction tx = .panicked := by
  simp only [resolved_account] at hgw
  simp only [Bank.process_transaction, resolved_account, hty, hgw, ham]

theorem process_transaction_shape (b : Bank) (tx : Transaction) (b' : Bank)
    (h : resultBank (b.process_transaction tx) = some b') :
    (∃ acct : Account,
      acct.client_id = tx.client_id ∧
      acct.available + acct.held - acct.total =
        (resolved_account b tx.client_id).available +
          (resolved_account b tx.client_id).held -
          (resolved_account b tx.client_id).total ∧
      (b'.accounts = (get_account b.accounts tx.client_id).2 ++ [acct] ∨
       b'.accounts = (get_account b.accounts tx.client_id).2)) ∧
    (b'.transactions = b.transactions ∨
     b'.transactions = removeTx b.transactions tx.id ∨
     (∃ amt : ℚ, tx.amount = some amt ∧
        b'.transactions = insertTx b.transactions tx.id (tx, .processed)) ∨
     (∃ rec : TransactionRecord, ∃ s : TransactionStatus,
        lookupTx b.transactions tx.id = some rec ∧
        b'.transactions = insertTx (removeTx b.transactions tx.id) tx.id (rec.1, s))) := by
  cases hty : tx.tx_type with
  | deposit =>
    cases ham : tx.amount with
    | none =>
      rw [process_deposit_missing b tx hty ham] at h
      simp only [resultBank, Option.some.injEq] at h
      subst h
      exact ⟨⟨resolved_account b tx.client_id, resolved_account_client b tx.client_id,
        rfl, Or.inr rfl⟩, Or.inl rfl⟩
    | some amt =>
      rw [process_deposit b tx amt hty ham] at h
      simp only [resultBank, Option.some.injEq] at h
      subst h
      refine ⟨⟨_, by simp [resolved_account_client], by ring, Or.inl rfl⟩,
        Or.inr (Or.inr (Or.inl ⟨amt, rfl, rfl⟩))⟩
  | withdrawal =>
    cases ham : tx.amount with
    | none =>
      rw [process_withdrawal_missing b tx hty ham] at h
      simp only [resultBank, Option.some.injEq] at h
      subst h
      exact ⟨⟨resolved_account b tx.client_id, resolved_account_client b tx.client_id,
        rfl, Or.inr rfl⟩, Or.inl rfl⟩
    | some amt =>
      by_cases hle : amt ≤ (resolved_account b tx.client_id).available
      · rw [process_withdrawal_le b tx amt hty ham hle] at h
        simp only [resultBank, Option.some.injEq] at h
        subst h
        refine ⟨⟨_, by simp [resolved_account_client], by ring, Or.inl rfl⟩,
          Or.inr (Or.inr (Or.inl ⟨amt, rfl, rfl⟩))⟩
      · rw [process_withdrawal_gt b tx amt hty ham (not_le.mp hle)] at h
        simp only [resultBank, Option.some.injEq] at h
        subst h
        exact ⟨⟨resolved_account b tx.client_id, resolved_account_client b tx.client_id,
          rfl, Or.inl rfl⟩, Or.inl rfl⟩
  | dispute =>
    cases hgw : get_transaction_with_status b.transactions (resolved_account b tx.client_id)
        tx.id TransactionStatus.processed with
    | mk res m' =>
      cases res with
      | ok rec =>
        cases ham : rec.1.amount with
        | none =>
          rw [process_dispute_found_missing b tx rec m' hty hgw ham] at h
          simp [resultBank] at h
        | some amt =>
          rw [process_dispute_found b tx rec m' amt hty hgw ham] at h
          simp only [resultBank, Option.some.injEq] at h
          subst h
          obtain ⟨hlk, _, _, hm'⟩ := gtws_fst_ok _ _ _ _ _ _ hgw
          refine ⟨⟨_, by simp [resolved_account_client], by ring, Or.inl rfl⟩,
            Or.inr (Or.inr (Or.inr ⟨rec, .disputed, hlk, by rw [hm']⟩))⟩
      | error e =>
        rw [process_dispute_err b tx e m' hty hgw] at h
        simp only [resultBank, Option.some.injEq] at h
        subst h
        have hm' : (get_transaction_with_status b.transactions
            (resolved_account b tx.client_id) tx.id TransactionStatus.processed).2 = m' := by
          rw [hgw]
        rcases gtws_snd_cases b.transactions (resolved_account b tx.client_id)
            tx.id TransactionStatus.processed with hc | hc
        · exact ⟨⟨resolved_account b tx.client_id, resolved_account_client b tx.client_id,
            rfl, Or.inl rfl⟩, Or.inl (hm'.symm.trans hc)⟩
        · exact ⟨⟨resolved_account b tx.client_id, resolved_account_client b tx.client_id,
            rfl, Or.inl rfl⟩, Or.inr (Or.inl (hm'.symm.trans hc))⟩
  | resolve =>
    cases hgw : get_transaction_with_status b.transactions (resolved_account b tx.client_id)
        tx.id TransactionStatus.disputed with
    | mk res m' =>
      cases res with
      | ok rec =>
        cases ham : rec.1.amount with
        | none =>
          rw [process_resolve_found_missing b tx rec m' hty hgw ham] at h
          simp [resultBank] at h
        | some amt =>
          rw [process_resolve_found b tx rec m' amt hty hgw ham] at h
          simp only [resultBank, Option.some.injEq] at h
          subst h
          obtain ⟨hlk, _, _, hm'⟩ := gtws_fst_ok _ _ _ _ _ _ hgw
          refine ⟨⟨_, by simp [resolved_account_client], by ring, Or.inl rfl⟩,
            Or.inr (Or.inr (Or.inr ⟨rec, .processed, hlk, by rw [hm']⟩))⟩
      | error e =>
        rw [process_resolve_err b tx e m' hty hgw] at h
        simp only [resultBank, Option.some.injEq] at h
        subst h
        have hm' : (get_transaction_with_status b.transactions
            (resolved_account b tx.client_id) tx.id TransactionStatus.disputed).2 = m' := by
          rw [hgw]
        rcases gtws_snd_cases b.transactions (resolved_account b tx.client_id)
            tx.id TransactionStatus.disputed with hc | hc
        · exact ⟨⟨resolved_account b tx.client_id, resolved_account_client b tx.client_id,
            rfl, Or.inl rfl⟩, Or.inl (hm'.symm.trans hc)⟩
        · exact ⟨⟨resolved_account b tx.client_id, resolved_account_client b tx.client_id,
            rfl, Or.inl rfl⟩, Or.inr (Or.inl (hm'.symm.trans hc))⟩
  | chargeback =>
    cases hgw : get_transaction_with_status b.transactions (resolved_account b tx.client_id)
        tx.id TransactionStatus.disputed with
    | mk res m' =>
      cases res with
      | ok rec =>
        cases ham : rec.1.amount with
        | none =>
          rw [process_chargeback_found_missing b tx rec m' hty hgw ham] at h
          simp [resultBank] at h
        | some amt =>
          rw [process_chargeback_found b tx rec m' amt hty hgw ham] at h
          simp only [resultBank, Option.some.injEq] at h
          subst h
          obtain ⟨hlk, _, _, hm'⟩ := gtws_fst_ok _ _ _ _ _ _ hgw
          refine ⟨⟨_, by simp [resolved_account_client], by ring, Or.inl rfl⟩,
            Or.inr (Or.inr (Or.inr ⟨rec, .processed, hlk, by rw [hm']⟩))⟩
      | error e =>
        rw [process_chargeback_err b tx e m' hty hgw] at h
        simp only [resultBank, Option.some.injEq] at h
        subst h
        have hm' : (get_transaction_with_status b.transactions
            (resolved_account b tx.client_id) tx.id TransactionStatus.disputed).2 = m' := by
          rw [hgw]
        rcases gtws_snd_cases b.transactions (resolved_account b tx.client_id)
            tx.id TransactionStatus.disputed with hc | hc
        · exact ⟨⟨resolved_account b tx.client_id, resolved_account_client b tx.client_id,
            rfl, Or.inl rfl⟩, Or.inl (hm'.symm.trans hc)⟩
        · exact ⟨⟨resolved_account b tx.client_id, resolved_account_client b tx.client_id,
            rfl, Or.inl rfl⟩, Or.inr (Or.inl (hm'.symm.trans hc))⟩

theorem resolved_account_balanced (b : Bank) (c : Nat) (hb : AccountsBalanced b) :
    (resolved_account b c).total =
      (resolved_account b c).available + (resolved_account b c).held := by
  unfold resolved_account
  cases hf : (get_account b.accounts c).1 with
  | none => simp [Account.new]
  | some a0 => simpa using hb a0 (get_account_fst_mem _ _ _ hf)

theorem process_preserves_balanced (b : Bank) (tx : Transaction) (b' : Bank)
    (hb : AccountsBalanced b)
    (h : resultBank (b.process_transaction tx) = some b') : AccountsBalanced b' := by
  obtain ⟨⟨acct, _, hdiff, hacc⟩, _⟩ := process_transaction_shape b tx b' h
  have hra := resolved_account_balanced b tx.client_id hb
  intro a ha
  rcases hacc with hacc | hacc
  · rw [hacc] at ha
    rcases List.mem_append.mp ha with h1 | h1
    · exact hb a (get_account_snd_subset _ _ a h1)
    · have : a = acct := by simpa using h1
      subst this
      linarith
  · rw [hacc] at ha
    exact hb a (get_account_snd_subset _ _ a ha)

theorem process_preserves_unique (b : Bank) (tx : Transaction) (b' : Bank)
    (hb : ClientsUnique b)
    (h : resultBank (b.process_transaction tx) = some b') : ClientsUnique b' := by
  obtain ⟨⟨acct, hcl, _, hacc⟩, _⟩ := process_transaction_shape b tx b' h
  have hnd2 : (((get_account b.accounts tx.client_id).2).map Account.client_id).Nodup :=
    (List.Sublist.map Account.client_id (get_account_sublist _ _)).nodup hb
  rcases hacc with hacc | hacc
  · unfold ClientsUnique
    rw [hacc, List.map_append]
    refine List.Nodup.append hnd2 (List.nodup_singleton _) ?_
    intro x hx hx2
    simp only [List.map_cons, List.map_nil, List.mem_singleton] at hx2
    subst hx2
    obtain ⟨a0, ha0, ha0e⟩ := List.mem_map.mp hx
    exact get_account_snd_not_client _ _ hb a0 ha0 (ha0e.trans hcl)
  · unfold ClientsUnique
    rw [hacc]
    exact hnd2

theorem process_preserves_amounts (b : Bank) (tx : Transaction) (b' : Bank)
    (hb : RecordsHaveAmount b)
    (h : resultBank (b.process_transaction tx) = some b') : RecordsHaveAmount b' := by
  obtain ⟨_, htx⟩ := process_transaction_shape b tx b' h
  intro i rec hl
  rcases htx with he | he | ⟨amt, ham, he⟩ | ⟨rec0, s, hlk, he⟩
  · exact hb i rec (he ▸ hl)
  · exact hb i rec (lookupTx_removeTx_some _ _ _ _ (he ▸ hl))
  · rw [he] at hl
    by_cases hi : i = tx.id
    · subst hi
      rw [lookupTx_insertTx_self] at hl
      obtain rfl := (Option.some.injEq _ _).mp hl
      simp [ham]
    · rw [lookupTx_insertTx_ne _ _ _ _ hi] at hl
      exact hb i rec hl
  · rw [he] at hl
    by_cases hi : i = tx.id
    · subst hi
      rw [lookupTx_insertTx_self] at hl
      obtain rfl := (Option.some.injEq _ _).mp hl
      simpa using hb tx.id rec0 hlk
    · rw [lookupTx_insertTx_ne _ _ _ _ hi] at hl
      exact hb i rec (lookupTx_removeTx_some _ _ _ _ hl)

theorem process_no_panic (b : Bank) (tx : Transaction) (hb : RecordsHaveAmount b) :
    b.process_transaction tx ≠ .panicked := by
  cases hty : tx.tx_type with
  | deposit =>
    cases ham : tx.amount with
    | none => rw [process_deposit_missing b tx hty ham]; simp
    | some amt => rw [process_deposit b tx amt hty ham]; simp
  | withdrawal =>
    cases ham : tx.amount with
    | none => rw [process_withdrawal_missing b tx hty ham]; simp
    | some amt =>
      by_cases hle : amt ≤ (resolved_account b tx.client_id).available
      · rw [process_withdrawal_le b tx amt hty ham hle]; simp
      · rw [process_withdrawal_gt b tx amt hty ham (not_le.mp hle)]; simp
  | dispute =>
    cases hgw : get_transaction_with_status b.transactions (resolved_account b tx.client_id)
        tx.id TransactionStatus.processed with
    | mk res m' =>
      cases res with
      | ok rec =>
        obtain ⟨hlk, _, _, _⟩ := gtws_fst_ok _ _ _ _ _ _ hgw
        have hsome := hb tx.id rec hlk
        cases ham : rec.1.amount with
        | none => rw [ham] at hsome; simp at hsome
        | some amt => rw [process_dispute_found b tx rec m' amt hty hgw ham]; simp
      | error e => rw [process_dispute_err b tx e m' hty hgw]; simp
  | resolve =>
    cases hgw : get_transaction_with_status b.transactions (resolved_account b tx.client_id)
        tx.id TransactionStatus.disputed with
    | mk res m' =>
      cases res with
      | ok rec =>
        obtain ⟨hlk, _, _, _⟩ := gtws_fst_ok _ _ _ _ _ _ hgw
        have hsome := hb tx.id rec hlk
        cases ham : rec.1.amount with
        | none => rw [ham] at hsome; simp at hsome
        | some amt => rw [process_resolve_found b tx rec m' amt hty hgw ham]; simp
      | error e => rw [process_resolve_err b tx e m' hty hgw]; simp
  | chargeback =>
    cases hgw : get_transaction_with_status b.transactions (resolved_account b tx.client_id)
        tx.id TransactionStatus.disputed with
    | mk res m' =>
      cases res with
      | ok rec =>
        obtain ⟨hlk, _, _, _⟩ := gtws_fst_ok _ _ _ _ _ _ hgw
        have hsome := hb tx.id rec hlk
        cases ham : rec.1.amount with
        | none => rw [ham] at hsome; simp at hsome
        | some amt => rw [process_chargeback_found b tx rec m' amt hty hgw ham]; simp
      | error e => rw [process_chargeback_err b tx e m' hty hgw]; simp

theorem batch_preserves (P : Bank → Prop)
    (hstep : ∀ b tx b', P b → resultBank (b.process_transaction tx) = some b' → P b') :
    ∀ (l : List Transaction) (b b' : Bank), P b →
      resultBank (b.batch_process l) = some b' → P b' := by
  intro l
  induction l with
  | nil =>
    intro b b' hP h
    simp only [Bank.batch_process, resultBank, Option.some.injEq] at h
    exact h ▸ hP
  | cons tx rest ih =>
    intro b b' hP h
    simp only [Bank.batch_process] at h
    cases hp : b.process_transaction tx with
    | ok b2 =>
      rw [hp] at h
      exact ih b2 b' (hstep b tx b2 hP (by rw [hp]; rfl)) h
    | fatal msg b2 =>
      rw [hp] at h
      simp only [resultBank, Option.some.injEq] at h
      exact h ▸ hstep b tx b2 hP (by rw [hp]; rfl)
    | panicked =>
      rw [hp] at h
      simp [resultBank] at h

theorem batch_no_panic (l : List Transaction) (b : Bank) (hb : RecordsHaveAmount b) :
    b.batch_process l ≠ .panicked := by
  induction l generalizing b with
  | nil => simp [Bank.batch_process]
  | cons tx rest ih =>
    simp only [Bank.batch_process]
    cases hp : b.process_transaction tx with
    | ok b2 =>
      exact ih b2 (process_preserves_amounts b tx b2 hb (by rw [hp]; rfl))
    | fatal msg b2 => simp
    | panicked => exact absurd hp (process_no_panic b tx hb)

theorem batch_process_append_ok (b b2 : Bank) (l1 l2 : List Transaction)
    (h : b.batch_process l1 = .ok b2) :
    b.batch_process (l1 ++ l2) = b2.batch_process l2 := by
  induction l1 generalizing b with
  | nil =>
    simp only [Bank.batch_process, ProcResult.ok.injEq] at h
    rw [List.nil_append, h]
  | cons tx rest ih =>
    simp only [Bank.batch_process] at h
    rw [List.cons_append]
    simp only [Bank.batch_process]
    cases hp : b.process_transaction tx with
    | ok b3 => rw [hp] at h; exact ih b3 h
    | fatal msg b3 => rw [hp] at h; simp at h
    | panicked => rw [hp] at h; simp at h

theorem batch_process_append_fatal (b b2 : Bank) (msg : String) (l1 l2 : List Transaction)
    (h : b.batch_process l1 = .fatal msg b2) :
    b.batch_process (l1 ++ l2) = .fatal msg b2 := by
  induction l1 generalizing b with
  | nil => simp [Bank.batch_process] at h
  | cons tx rest ih =>
    simp only [Bank.batch_process] at h
    rw [List.cons_append]
    simp only [Bank.batch_process]
    cases hp : b.process_transaction tx with
    | ok b3 => rw [hp] at h; exact ih b3 h
    | fatal msg3 b3 => rw [hp] at h; rw [h]
    | panicked => rw [hp] at h; simp at h

theorem floorLog2Nat_eq_of_bounds (k n : Nat) (h1 : 2 ^ k ≤ n) (h2 : n < 2 ^ (k + 1)) :
    floorLog2Nat n = k := by
  induction k generalizing n with
  | zero =>
    rw [floorLog2Nat]
    rw [dif_neg (by omega)]
  | succ k ih =>
    have h2n : 2 ≤ n :=
      le_trans (le_trans (by norm_num) (Nat.pow_le_pow_right (by omega) (by omega :
        1 ≤ k + 1))) h1
    rw [floorLog2Nat, dif_pos h2n, ih (n / 2)]
    · rw [Nat.le_div_iff_mul_le (by omega)]
      calc 2 ^ k * 2 = 2 ^ (k + 1) := by ring
        _ ≤ n := h1
    · rw [Nat.div_lt_iff_lt_mul (by omega)]
      calc n < 2 ^ (k + 1 + 1) := h2
        _ = 2 ^ (k + 1) * 2 := by ring

theorem floorLog2Nat_one : floorLog2Nat 1 = 0 :=
  floorLog2Nat_eq_of_bounds 0 1 (by norm_num) (by norm_num)

theorem floorLog2Nat_two : floorLog2Nat 2 = 1 :=
  floorLog2Nat_eq_of_bounds 1 2 (by norm_num) (by norm_num)

theorem floorLog2Nat_16777215 : floorLog2Nat 16777215 = 23 :=
  floorLog2Nat_eq_of_bounds 23 16777215 (by norm_num) (by norm_num)

theorem floorLog2Nat_16777216 : floorLog2Nat 16777216 = 24 :=
  floorLog2Nat_eq_of_bounds 24 16777216 (by norm_num) (by norm_num)

theorem floorLog2Nat_16777217 : floorLog2Nat 16777217 = 24 :=
  floorLog2Nat_eq_of_bounds 24 16777217 (by norm_num) (by norm_num)

theorem floorLog2_one : floorLog2 (1 : ℚ) = 0 := by
  norm_num [floorLog2, floorLog2Nat_one]

theorem floorLog2_two : floorLog2 (2 : ℚ) = 1 := by
  norm_num [floorLog2, floorLog2Nat_two]

theorem floorLog2_16777215 : floorLog2 (16777215 : ℚ) = 23 := by
  norm_num [floorLog2, floorLog2Nat_16777215]

theorem floorLog2_16777216 : floorLog2 (16777216 : ℚ) = 24 := by
  norm_num [floorLog2, floorLog2Nat_16777216]

theorem floorLog2_16777217 : floorLog2 (16777217 : ℚ) = 24 := by
  norm_num [floorLog2, floorLog2Nat_16777217]

theorem addF32_0_2 : addF32 0 2 = 2 := by
  have h0 : (0:ℚ) + 2 = 2 := by norm_num
  rw [addF32, h0, round32, if_neg (by norm_num : ¬ ((2:ℚ) < 0))]
  norm_num [round32Pos, floorLog2_two, roundTiesEven, ratFloor]

theorem subF32_2_2 : subF32 2 2 = 0 := by
  have h0 : (2:ℚ) - 2 = 0 := by norm_num
  rw [subF32, h0, round32, if_neg (by norm_num : ¬ ((0:ℚ) < 0))]
  norm_num [round32Pos]

theorem addF32_0_16777215 : addF32 0 16777215 = 16777215 := by
  have h0 : (0:ℚ) + 16777215 = 16777215 := by norm_num
  rw [addF32, h0, round32, if_neg (by norm_num : ¬ ((16777215:ℚ) < 0))]
  norm_num [round32Pos, floorLog2_16777215, roundTiesEven, ratFloor]

theorem addF32_2_16777215 : addF32 2 16777215 = 16777216 := by
  have h0 : (2:ℚ) + 16777215 = 16777217 := by norm_num
  rw [addF32, h0, round32, if_neg (by norm_num : ¬ ((16777217:ℚ) < 0))]
  norm_num [round32Pos, floorLog2_16777217, roundTiesEven, ratFloor]

theorem addF32_16777215_1 : addF32 16777215 1 = 16777216 := by
  have h0 : (16777215:ℚ) + 1 = 16777216 := by norm_num
  rw [addF32, h0, round32, if_neg (by norm_num : ¬ ((16777216:ℚ) < 0))]
  norm_num [round32Pos, floorLog2_16777216, roundTiesEven, ratFloor]

theorem addF32_16777216_1 : addF32 16777216 1 = 16777216 := by
  have h0 : (16777216:ℚ) + 1 = 16777217 := by norm_num
  rw [addF32, h0, round32, if_neg (by norm_num : ¬ ((16777217:ℚ) < 0))]
  norm_num [round32Pos, floorLog2_16777217, roundTiesEven, ratFloor]

theorem addF32_0_1 : addF32 0 1 = 1 := by
  have h0 : (0:ℚ) + 1 = 1 := by norm_num
  rw [addF32, h0, round32, if_neg (by norm_num : ¬ ((1:ℚ) < 0))]
  norm_num [round32Pos, floorLog2_one, roundTiesEven, ratFloor]

theorem subF32_1_1 : subF32 1 1 = 0 := by
  have h0 : (1:ℚ) - 1 = 0 := by norm_num
  rw [subF32, h0, round32, if_neg (by norm_num : ¬ ((0:ℚ) < 0))]
  norm_num [round32Pos]

theorem subF32_16777218_1 : subF32 16777218 1 = 16777216 := by
  have h0 : (16777218:ℚ) - 1 = 16777217 := by norm_num
  rw [subF32, h0, round32, if_neg (by norm_num : ¬ ((16777217:ℚ) < 0))]
  norm_num [round32Pos, floorLog2_16777217, roundTiesEven, ratFloor]

/-- C1 (amended): with amounts as exact rationals — no rounding — every
account in the ledger satisfies `total = available + held` after processing
every transaction of any batch starting from a fresh `Bank`.  Under the
program's rounded `f32` arithmetic the unqualified invariant fails (see the
binary32 counterexample below). -/
theorem total_eq_available_add_held (batch : List Transaction) (b' : Bank)
    (h : resultBank (Bank.new.batch_process batch) = some b') :
    ∀ a ∈ b'.accounts, a.total = a.available + a.held :=
  batch_preserves AccountsBalanced process_preserves_balanced batch Bank.new b'
    (by intro a ha; simp [Bank.new] at ha) h

theorem total_eq_available_add_held_witness :
    (⟨1, 30, 0, 30, false⟩ : Account).total =
      (⟨1, 30, 0, 30, false⟩ : Account).available +
        (⟨1, 30, 0, 30, false⟩ : Account).held :=
  total_eq_available_add_held [⟨.deposit, 1, 1, some 30⟩]
    ⟨[⟨1, 30, 0, 30, false⟩], [(1, (⟨.deposit, 1, 1, some 30⟩, .processed))]⟩
    (by simp [Bank.batch_process, Bank.process_transaction, get_account, insertTx,
      removeTx, lookupTx, Bank.new, Account.new, resultBank])
    ⟨1, 30, 0, 30, false⟩ (by simp)

/-- C1 counterexample: under binary32 (`f32`) rounded arithmetic the batch
deposit 2, dispute it, deposit 16777215, deposit 1 — processed from a fresh
`Bank` — ends with available = 16777216, held = 2, total = 16777216, so the
account's `total` differs from `available + held` on the program's `f32`
balances. -/
theorem total_invariant_fails_under_f32 :
    Bank.batch_process_f32 Bank.new
        [⟨.deposit, 1, 1, some 2⟩, ⟨.dispute, 1, 1, none⟩,
          ⟨.deposit, 1, 2, some 16777215⟩, ⟨.deposit, 1, 3, some 1⟩] = .ok
      ⟨[⟨1, 16777216, 2, 16777216, false⟩],
        [(3, (⟨.deposit, 1, 3, some 1⟩, .processed)),
          (2, (⟨.deposit, 1, 2, some 16777215⟩, .processed)),
          (1, (⟨.deposit, 1, 1, some 2⟩, .disputed))]⟩ ∧
    ¬ ((⟨1, 16777216, 2, 16777216, false⟩ : Account).total =
        (⟨1, 16777216, 2, 16777216, false⟩ : Account).available +
          (⟨1, 16777216, 2, 16777216, false⟩ : Account).held) := by
  constructor
  · norm_num [Bank.batch_process_f32, Bank.process_transaction_f32, get_account,
      get_transaction_with_status, lookupTx, insertTx, removeTx, Bank.new, Account.new,
      addF32_0_2, subF32_2_2, addF32_0_16777215, addF32_2_16777215, addF32_16777215_1,
      addF32_16777216_1]
  · norm_num

/-- C6: a withdrawal whose amount exceeds the available funds leaves the
account's fields unchanged, records nothing, and still returns `Ok`. -/
theorem withdrawal_insufficient_funds_noop (b : Bank) (tx : Transaction) (amt : ℚ)
    (hty : tx.tx_type = .withdrawal)
    (ham : tx.amount = some amt)
    (hgt : (resolved_account b tx.client_id).available < amt) :
    b.process_transaction tx = .ok
      { accounts := (get_account b.accounts tx.client_id).2 ++
          [resolved_account b tx.client_id],
        transactions := b.transactions } :=
  process_withdrawal_gt b tx amt hty ham hgt

theorem withdrawal_insufficient_funds_noop_witness :
    Bank.process_transaction ⟨[⟨5, 30, 0, 30, false⟩], []⟩ ⟨.withdrawal, 5, 2, some 45⟩ = .ok
      ⟨(get_account [⟨5, 30, 0, 30, false⟩] 5).2 ++
          [resolved_account ⟨[⟨5, 30, 0, 30, false⟩], []⟩ 5], []⟩ :=
  withdrawal_insufficient_funds_noop ⟨[⟨5, 30, 0, 30, false⟩], []⟩
    ⟨.withdrawal, 5, 2, some 45⟩ 45 rfl rfl
    (by norm_num [resolved_account, get_account, Account.new])

theorem batch_process_nil (b : Bank) : b.batch_process [] = .ok b := rfl

theorem batch_process_cons_ok (b b2 : Bank) (tx : Transaction) (rest : List Transaction)
    (h : b.process_transaction tx = .ok b2) :
    b.batch_process (tx :: rest) = b2.batch_process rest := by
  simp only [Bank.batch_process, h]

theorem batch_process_cons_fatal (b b2 : Bank) (msg : String) (tx : Transaction)
    (rest : List Transaction) (h : b.process_transaction tx = .fatal msg b2) :
    b.batch_process (tx :: rest) = .fatal msg b2 := by
  simp only [Bank.batch_process, h]

/-- C5 (amended): with exact (unrounded) arithmetic, on a ledger whose
client ids are unique, a dispute on a stored `Processed` record of the same
client followed by a resolve on the same id returns the account to exactly
its pre-dispute state (the vector `l` of the other accounts with `A` pushed
back) and the record to status `Processed`.  Under the program's rounded
`f32` arithmetic the restoration is not exact (see the binary32
counterexample below). -/
theorem dispute_then_resolve_restores (b : Bank) (c i : Nat) (rtx : Transaction)
    (amt : ℚ) (A : Account) (l : List Account) (d r : Transaction)
    (hnd : ClientsUnique b)
    (hacc : get_account b.accounts c = (some A, l))
    (hlk : lookupTx b.transactions i = some (rtx, .processed))
    (hcl : rtx.client_id = c)
    (ham : rtx.amount = some amt)
    (hd1 : d.tx_type = .dispute) (hd2 : d.client_id = c) (hd3 : d.id = i)
    (hr1 : r.tx_type = .resolve) (hr2 : r.client_id = c) (hr3 : r.id = i) :
    b.batch_process [d, r] = .ok
      { accounts := l ++ [A],
        transactions := insertTx (removeTx (insertTx (removeTx b.transactions i) i
          (rtx, .disputed)) i) i (rtx, .processed) } := by
  have hAc : A.client_id = c := get_account_fst_client b.accounts c A (by rw [hacc])
  have hres : resolved_account b c = A := by
    unfold resolved_account
    rw [hacc]
    rfl
  have hsnd : (get_account b.accounts c).2 = l := by rw [hacc]
  have hlfree : ∀ x ∈ l, x.client_id ≠ c := by
    intro x hx
    exact get_account_snd_not_client b.accounts c hnd x (by rw [hsnd]; exact hx)
  have hgw1 : get_transaction_with_status b.transactions (resolved_account b d.client_id)
      d.id .processed = (.ok (rtx, .processed), removeTx b.transactions d.id) := by
    rw [hd2, hd3]
    exact gtws_of_found b.transactions (resolved_account b c) i .processed (rtx, .processed)
      hlk (by rw [hres, hAc]; exact hcl) rfl
  have h1 := process_dispute_found b d (rtx, .processed) (removeTx b.transactions d.id)
    amt hd1 hgw1 ham
  have hb1 : b.process_transaction d = .ok
      { accounts := l ++ [{ A with held := A.held + amt, available := A.available - amt }],
        transactions := insertTx (removeTx b.transactions i) i (rtx, .disputed) } := by
    rw [h1, hd2, hd3, hres, hsnd]
  set A1 : Account := { A with held := A.held + amt, available := A.available - amt }
    with hA1
  set B1 : Bank :=
    { accounts := l ++ [A1],
      transactions := insertTx (removeTx b.transactions i) i (rtx, .disputed) }
    with hB1
  have hacc2 : get_account B1.accounts c = (some A1, l) :=
    get_account_append_of_not_mem l c A1 hlfree (by rw [hA1]; exact hAc)
  have hres2 : resolved_account B1 c = A1 := by
    unfold resolved_account
    rw [hacc2]
    rfl
  have hsnd2 : (get_account B1.accounts c).2 = l := by rw [hacc2]
  have hlk2 : lookupTx B1.transactions i = some (rtx, .disputed) :=
    lookupTx_insertTx_self (removeTx b.transactions i) i (rtx, .disputed)
  have hgw2 : get_transaction_with_status B1.transactions (resolved_account B1 r.client_id)
      r.id .disputed = (.ok (rtx, .disputed), removeTx B1.transactions r.id) := by
    rw [hr2, hr3]
    exact gtws_of_found B1.transactions (resolved_account B1 c) i .disputed (rtx, .disputed)
      hlk2 (by rw [hres2, hA1]; show rtx.client_id = A.client_id; rw [hAc]; exact hcl) rfl
  have h2 := process_resolve_found B1 r (rtx, .disputed) (removeTx B1.transactions r.id)
    amt hr1 hgw2 ham
  have hA1A : ({ A1 with held := A1.held - amt, available := A1.available + amt } :
      Account) = A := by
    rw [hA1]
    have e1 : A.available - amt + amt = A.available := by ring
    have e2 : A.held + amt - amt = A.held := by ring
    show ({ client_id := A.client_id,
            available := A.available - amt + amt,
            held := A.held + amt - amt,
            total := A.total,
            locked := A.locked } : Account) = A
    rw [e1, e2]
  have hb2 : B1.process_transaction r = .ok
      { accounts := l ++ [A],
        transactions := insertTx (removeTx (insertTx (removeTx b.transactions i) i
          (rtx, .disputed)) i) i (rtx, .processed) } := by
    rw [h2, hr2, hr3, hres2, hsnd2, hA1A, hB1]
  rw [batch_process_cons_ok b B1 d [r] hb1,
    batch_process_cons_ok B1 _ r [] hb2, batch_process_nil]

theorem dispute_then_resolve_restores_witness :
    Bank.batch_process
        ⟨[⟨5, 15, 0, 15, false⟩], [(2, (⟨.withdrawal, 5, 2, some 10⟩, .processed))]⟩
        [⟨.dispute, 5, 2, none⟩, ⟨.resolve, 5, 2, none⟩] = .ok
      ⟨[] ++ [⟨5, 15, 0, 15, false⟩],
        insertTx (removeTx (insertTx
          (removeTx [(2, (⟨.withdrawal, 5, 2, some 10⟩, .processed))] 2) 2
          (⟨.withdrawal, 5, 2, some 10⟩, .disputed)) 2) 2
          (⟨.withdrawal, 5, 2, some 10⟩, .processed)⟩ :=
  dispute_then_resolve_restores
    ⟨[⟨5, 15, 0, 15, false⟩], [(2, (⟨.withdrawal, 5, 2, some 10⟩, .processed))]⟩
    5 2 ⟨.withdrawal, 5, 2, some 10⟩ 10 ⟨5, 15, 0, 15, false⟩ []
    ⟨.dispute, 5, 2, none⟩ ⟨.resolve, 5, 2, none⟩
    (by simp [ClientsUnique]) rfl rfl rfl rfl rfl rfl rfl rfl rfl rfl

/-- C5 counterexample: under binary32 (`f32`) rounded arithmetic a dispute
followed by a resolve on the same record does not restore the pre-dispute
balances: with available = 16777218 and a Processed record of amount 1, the
account ends with available = 16777216. -/
theorem dispute_resolve_not_exact_under_f32 :
    Bank.batch_process_f32
        ⟨[⟨5, 16777218, 0, 16777218, false⟩],
          [(2, (⟨.withdrawal, 5, 2, some 1⟩, .processed))]⟩
        [⟨.dispute, 5, 2, none⟩, ⟨.resolve, 5, 2, none⟩] = .ok
      ⟨[⟨5, 16777216, 0, 16777218, false⟩],
        [(2, (⟨.withdrawal, 5, 2, some 1⟩, .processed))]⟩ ∧
    ¬ ((⟨5, 16777216, 0, 16777218, false⟩ : Account).available =
        (⟨5, 16777218, 0, 16777218, false⟩ : Account).available) := by
  constructor
  · norm_num [Bank.batch_process_f32, Bank.process_transaction_f32, get_account,
      get_transaction_with_status, lookupTx, insertTx, removeTx, Account.new,
      addF32_0_1, subF32_16777218_1, subF32_1_1, addF32_16777216_1]
  · norm_num

/-- C7: if a deposit or withdrawal with no amount is reached after a prefix
that processed without fatal error, the whole batch returns the fatal
missing-amount error, and the result is the same as if the transactions
after the offending one were not there at all. -/
theorem missing_amount_aborts_batch (b b1 : Bank) (pre post : List Transaction)
    (t : Transaction)
    (hty : t.tx_type = .deposit ∨ t.tx_type = .withdrawal)
    (ham : t.amount = none)
    (hpre : b.batch_process pre = .ok b1) :
    b.batch_process (pre ++ t :: post) = .fatal INVALID_TRANSACTION_DATA_NO_AMOUNT
      { accounts := (get_account b1.accounts t.client_id).2,
        transactions := b1.transactions } ∧
    b.batch_process (pre ++ t :: post) = b.batch_process (pre ++ [t]) := by
  have hft : b1.process_transaction t = .fatal INVALID_TRANSACTION_DATA_NO_AMOUNT
      { accounts := (get_account b1.accounts t.client_id).2,
        transactions := b1.transactions } := by
    rcases hty with hty | hty
    · exact process_deposit_missing b1 t hty ham
    · exact process_withdrawal_missing b1 t hty ham
  have h1 : b.batch_process (pre ++ t :: post) = .fatal INVALID_TRANSACTION_DATA_NO_AMOUNT
      { accounts := (get_account b1.accounts t.client_id).2,
        transactions := b1.transactions } := by
    rw [batch_process_append_ok b b1 pre (t :: post) hpre]
    exact batch_process_cons_fatal b1 _ _ t post hft
  refine ⟨h1, ?_⟩
  rw [h1, batch_process_append_ok b b1 pre [t] hpre]
  exact (batch_process_cons_fatal b1 _ _ t [] hft).symm

theorem missing_amount_aborts_batch_witness :
    Bank.batch_process Bank.new
        ([⟨.deposit, 1, 1, some 30⟩] ++ ⟨.deposit, 1, 2, none⟩ ::
          [⟨.deposit, 1, 3, some 99⟩]) = .fatal INVALID_TRANSACTION_DATA_NO_AMOUNT
      ⟨(get_account [⟨1, 0 + 30, 0, 0 + 30, false⟩] 1).2,
        insertTx [] 1 (⟨.deposit, 1, 1, some 30⟩, .processed)⟩ ∧
    Bank.batch_process Bank.new
        ([⟨.deposit, 1, 1, some 30⟩] ++ ⟨.deposit, 1, 2, none⟩ ::
          [⟨.deposit, 1, 3, some 99⟩]) =
      Bank.batch_process Bank.new ([⟨.deposit, 1, 1, some 30⟩] ++ [⟨.deposit, 1, 2, none⟩]) :=
  missing_amount_aborts_batch Bank.new
    ⟨[⟨1, 0 + 30, 0, 0 + 30, false⟩], insertTx [] 1 (⟨.deposit, 1, 1, some 30⟩, .processed)⟩
    [⟨.deposit, 1, 1, some 30⟩] [⟨.deposit, 1, 3, some 99⟩] ⟨.deposit, 1, 2, none⟩
    (Or.inl rfl) rfl rfl

/-- C8: a dispute, resolve or chargeback whose record lookup fails leaves the
resolved account's fields untouched (it is pushed back unchanged),
`process_transaction` returns `Ok`, and `batch_process` goes on with the
remaining transactions from the resulting state. -/
theorem dispute_family_failure_continues (b : Bank) (tx : Transaction)
    (ds : TransactionStatus) (e : String) (m' : List (Nat × TransactionRecord))
    (rest : List Transaction)
    (hds : dispute_family_desired tx.tx_type = some ds)
    (hgw : get_transaction_with_status b.transactions (resolved_account b tx.client_id)
        tx.id ds = (.error e, m')) :
    b.process_transaction tx = .ok
      { accounts := (get_account b.accounts tx.client_id).2 ++
          [resolved_account b tx.client_id],
        transactions := m' } ∧
    b.batch_process (tx :: rest) = Bank.batch_process
      { accounts := (get_account b.accounts tx.client_id).2 ++
          [resolved_account b tx.client_id],
        transactions := m' } rest := by
  have hok : b.process_transaction tx = .ok
      { accounts := (get_account b.accounts tx.client_id).2 ++
          [resolved_account b tx.client_id],
        transactions := m' } := by
    cases hty : tx.tx_type with
    | deposit => rw [hty] at hds; simp [dispute_family_desired] at hds
    | withdrawal => rw [hty] at hds; simp [dispute_family_desired] at hds
    | dispute =>
      rw [hty] at hds
      simp only [dispute_family_desired, Option.some.injEq] at hds
      exact process_dispute_err b tx e m' hty (hds ▸ hgw)
    | resolve =>
      rw [hty] at hds
      simp only [dispute_family_desired, Option.some.injEq] at hds
      exact process_resolve_err b tx e m' hty (hds ▸ hgw)
    | chargeback =>
      rw [hty] at hds
      simp only [dispute_family_desired, Option.some.injEq] at hds
      exact process_chargeback_err b tx e m' hty (hds ▸ hgw)
  exact ⟨hok, batch_process_cons_ok b _ tx rest hok⟩

theorem dispute_family_failure_continues_witness :
    (Bank.process_transaction Bank.new ⟨.dispute, 1, 7, none⟩ = .ok
      ⟨(get_account [] 1).2 ++ [resolved_account Bank.new 1], []⟩) ∧
    Bank.batch_process Bank.new (⟨.dispute, 1, 7, none⟩ :: [⟨.deposit, 1, 8, some 3⟩]) =
      Bank.batch_process ⟨(get_account [] 1).2 ++ [resolved_account Bank.new 1], []⟩
        [⟨.deposit, 1, 8, some 3⟩] :=
  dispute_family_failure_continues Bank.new ⟨.dispute, 1, 7, none⟩ .processed
    ("Transaction #" ++ toString 7 ++ " not found") [] [⟨.deposit, 1, 8, some 3⟩]
    rfl rfl

theorem process_ok_accounts_shape (b : Bank) (tx : Transaction) (b2 : Bank)
    (h : b.process_transaction tx = .ok b2) :
    ∃ acct : Account, acct.client_id = tx.client_id ∧
      b2.accounts = (get_account b.accounts tx.client_id).2 ++ [acct] := by
  cases hty : tx.tx_type with
  | deposit =>
    cases ham : tx.amount with
    | none => rw [process_deposit_missing b tx hty ham] at h; simp at h
    | some amt =>
      rw [process_deposit b tx amt hty ham] at h
      injection h with h2
      subst h2
      exact ⟨_, by simp [resolved_account_client], rfl⟩
  | withdrawal =>
    cases ham : tx.amount with
    | none => rw [process_withdrawal_missing b tx hty ham] at h; simp at h
    | some amt =>
      by_cases hle : amt ≤ (resolved_account b tx.client_id).available
      · rw [process_withdrawal_le b tx amt hty ham hle] at h
        injection h with h2
        subst h2
        exact ⟨_, by simp [resolved_account_client], rfl⟩
      · rw [process_withdrawal_gt b tx amt hty ham (not_le.mp hle)] at h
        injection h with h2
        subst h2
        exact ⟨_, resolved_account_client b tx.client_id, rfl⟩
  | dispute =>
    cases hgw : get_transaction_with_status b.transactions (resolved_account b tx.client_id)
        tx.id TransactionStatus.processed with
    | mk res m2 =>
      cases res with
      | ok rec =>
        cases ham : rec.1.amount with
        | none =>
          rw [process_dispute_found_missing b tx rec m2 hty hgw ham] at h
          simp at h
        | some amt =>
          rw [process_dispute_found b tx rec m2 amt hty hgw ham] at h
          injection h with h2
          subst h2
          exact ⟨_, by simp [resolved_account_client], rfl⟩
      | error e =>
        rw [process_dispute_err b tx e m2 hty hgw] at h
        injection h with h2
        subst h2
        exact ⟨_, resolved_account_client b tx.client_id, rfl⟩
  | resolve =>
    cases hgw : get_transaction_with_status b.transactions (resolved_account b tx.client_id)
        tx.id TransactionStatus.disputed with
    | mk res m2 =>
      cases res with
      | ok rec =>
        cases ham : rec.1.amount with
        | none =>
          rw [process_resolve_found_missing b tx rec m2 hty hgw ham] at h
          simp at h
        | some amt =>
          rw [process_resolve_found b tx rec m2 amt hty hgw ham] at h
          injection h with h2
          subst h2
          exact ⟨_, by simp [resolved_account_client], rfl⟩
      | error e =>
        rw [process_resolve_err b tx e m2 hty hgw] at h
        injection h with h2
        subst h2
        exact ⟨_, resolved_account_client b tx.client_id, rfl⟩
  | chargeback =>
    cases hgw : get_transaction_with_status b.transactions (resolved_account b tx.client_id)
        tx.id TransactionStatus.disputed with
    | mk res m2 =>
      cases res with
      | ok rec =>
        cases ham : rec.1.amount with
        | none =>
          rw [process_chargeback_found_missing b tx rec m2 hty hgw ham] at h
          simp at h
        | some amt =>
          rw [process_chargeback_found b tx rec m2 amt hty hgw ham] at h
          injection h with h2
          subst h2
          exact ⟨_, by simp [resolved_account_client], rfl⟩
      | error e =>
        rw [process_chargeback_err b tx e m2 hty hgw] at h
        injection h with h2
        subst h2
        exact ⟨_, resolved_account_client b tx.client_id, rfl⟩

/-- C9 counterexample: a deposit with no amount as the first transaction
referencing client 1 creates no account at all, and when an account of the
client already exists a missing-amount transaction even removes it from the
collection (the early `?` return skips the push-back of the removed
account). -/
theorem account_not_created_on_missing_amount :
    Bank.batch_process Bank.new [⟨.deposit, 1, 1, none⟩] =
      .fatal INVALID_TRANSACTION_DATA_NO_AMOUNT ⟨[], []⟩ ∧
    Bank.batch_process Bank.new [⟨.deposit, 1, 1, some 30⟩, ⟨.deposit, 1, 2, none⟩] =
      .fatal INVALID_TRANSACTION_DATA_NO_AMOUNT
        ⟨[], [(1, (⟨.deposit, 1, 1, some 30⟩, .processed))]⟩ :=
  ⟨rfl, rfl⟩

/-- C9 (amended): every bank state produced by batch processing from a fresh
`Bank` (also the state a fatal error stops in) has at most one account per
client id; for a client with no account yet, the engine resolves to a
brand-new account with zero balances and `locked = false`, and whenever the
transaction processes successfully (`Ok`) that newly created account is
pushed into the collection.  A missing-amount deposit/withdrawal instead
returns the fatal error without pushing anything. -/
theorem accounts_unique_and_lazily_created (batch : List Transaction) (b' : Bank)
    (h : resultBank (Bank.new.batch_process batch) = some b') :
    (b'.accounts.map Account.client_id).Nodup ∧
    ∀ tx : Transaction, (∀ a ∈ b'.accounts, a.client_id ≠ tx.client_id) →
      resolved_account b' tx.client_id =
        { client_id := tx.client_id, available := 0, held := 0, total := 0,
          locked := false } ∧
      ∀ b2 : Bank, b'.process_transaction tx = .ok b2 →
        ∃ acct : Account, acct.client_id = tx.client_id ∧
          b2.accounts = b'.accounts ++ [acct] := by
  refine ⟨batch_preserves ClientsUnique process_preserves_unique batch Bank.new b'
    (by simp [ClientsUnique, Bank.new]) h, ?_⟩
  intro tx habs
  have hga : get_account b'.accounts tx.client_id = (none, b'.accounts) :=
    get_account_of_not_mem b'.accounts tx.client_id habs
  constructor
  · unfold resolved_account
    rw [hga]
    rfl
  · intro b2 hok
    obtain ⟨acct, hc, hacc⟩ := process_ok_accounts_shape b' tx b2 hok
    exact ⟨acct, hc, by rw [hacc, hga]⟩

theorem accounts_unique_and_lazily_created_witness :
    (([⟨1, 0 + 30, 0, 0 + 30, false⟩] : List Account).map Account.client_id).Nodup ∧
    resolved_account
        ⟨[⟨1, 0 + 30, 0, 0 + 30, false⟩],
          [(1, (⟨.deposit, 1, 1, some 30⟩, .processed))]⟩ 2 =
      { client_id := 2, available := 0, held := 0, total := 0, locked := false } ∧
    ∃ acct : Account, acct.client_id = 2 ∧
      (⟨[⟨1, 0 + 30, 0, 0 + 30, false⟩, ⟨2, 0 + 7, 0, 0 + 7, false⟩],
          [(9, (⟨.deposit, 2, 9, some 7⟩, .processed)),
            (1, (⟨.deposit, 1, 1, some 30⟩, .processed))]⟩ : Bank).accounts =
        [⟨1, 0 + 30, 0, 0 + 30, false⟩] ++ [acct] :=
  ⟨(accounts_unique_and_lazily_created [⟨.deposit, 1, 1, some 30⟩]
      ⟨[⟨1, 0 + 30, 0, 0 + 30, false⟩],
        [(1, (⟨.deposit, 1, 1, some 30⟩, .processed))]⟩ rfl).1,
    ((accounts_unique_and_lazily_created [⟨.deposit, 1, 1, some 30⟩]
      ⟨[⟨1, 0 + 30, 0, 0 + 30, false⟩],
        [(1, (⟨.deposit, 1, 1, some 30⟩, .processed))]⟩ rfl).2
      ⟨.deposit, 2, 9, some 7⟩ (by decide)).1,
    ((accounts_unique_and_lazily_created [⟨.deposit, 1, 1, some 30⟩]
      ⟨[⟨1, 0 + 30, 0, 0 + 30, false⟩],
        [(1, (⟨.deposit, 1, 1, some 30⟩, .processed))]⟩ rfl).2
      ⟨.deposit, 2, 9, some 7⟩ (by decide)).2
      ⟨[⟨1, 0 + 30, 0, 0 + 30, false⟩, ⟨2, 0 + 7, 0, 0 + 7, false⟩],
        [(9, (⟨.deposit, 2, 9, some 7⟩, .processed)),
          (1, (⟨.deposit, 1, 1, some 30⟩, .processed))]⟩ rfl⟩

/-- C10: starting from a fresh `Bank`, every record ever stored in the
transactions map carries `some` amount, so the `.expect` calls of the
dispute/resolve/chargeback arms can never panic during batch processing. -/
theorem records_have_amount_and_no_panic (batch : List Transaction) :
    (∀ b', resultBank (Bank.new.batch_process batch) = some b' →
      ∀ i rec, lookupTx b'.transactions i = some rec → rec.1.amount.isSome = true) ∧
    Bank.new.batch_process batch ≠ .panicked := by
  have hnew : RecordsHaveAmount Bank.new := by
    intro i rec h
    simp [Bank.new, lookupTx] at h
  exact ⟨fun b' h => batch_preserves RecordsHaveAmount process_preserves_amounts
      batch Bank.new b' hnew h,
    batch_no_panic batch Bank.new hnew⟩

theorem records_have_amount_and_no_panic_witness :
    ((⟨.deposit, 1, 1, some 30⟩ : Transaction), TransactionStatus.processed).1.amount.isSome
        = true ∧
    Bank.batch_process Bank.new [⟨.deposit, 1, 1, some 30⟩, ⟨.dispute, 1, 1, none⟩]
        ≠ .panicked :=
  ⟨(records_have_amount_and_no_panic [⟨.deposit, 1, 1, some 30⟩]).1
      ⟨[⟨1, 0 + 30, 0, 0 + 30, false⟩], insertTx [] 1 (⟨.deposit, 1, 1, some 30⟩, .processed)⟩
      rfl 1 (⟨.deposit, 1, 1, some 30⟩, .processed) rfl,
    (records_have_amount_and_no_panic [⟨.deposit, 1, 1, some 30⟩, ⟨.dispute, 1, 1, none⟩]).2⟩

/-- C2 counterexample: `get_transaction_with_status` can return an error
(client mismatch here) after which the looked-up record is gone from the
store, refuting "returns an error and leaves the store unchanged". -/
theorem take_for_status_error_drops_record :
    (get_transaction_with_status [(2, (⟨.withdrawal, 5, 2, some 10⟩, .processed))]
        ⟨15, 15, 0, 15, false⟩ 2 .processed).1 =
      .error ("Transaction #" ++ toString 2 ++ " does not have matching client id") ∧
    (get_transaction_with_status [(2, (⟨.withdrawal, 5, 2, some 10⟩, .processed))]
        ⟨15, 15, 0, 15, false⟩ 2 .processed).2 = [] :=
  ⟨rfl, rfl⟩

/-- C2 (amended): on a `NotFound` error the store is unchanged; on a client
mismatch or wrong-status error the looked-up record has been removed from
the store and is not re-inserted; records under any other id are unchanged
in every case. -/
theorem take_for_status_error_store_effect (m : List (Nat × TransactionRecord))
    (a : Account) (i : Nat) (d : TransactionStatus) :
    (lookupTx m i = none →
      get_transaction_with_status m a i d =
        (.error ("Transaction #" ++ toString i ++ " not found"), m)) ∧
    (∀ rec, lookupTx m i = some rec → rec.1.client_id ≠ a.client_id →
      get_transaction_with_status m a i d =
        (.error ("Transaction #" ++ toString i ++ " does not have matching client id"),
          removeTx m i)) ∧
    (∀ rec, lookupTx m i = some rec → rec.1.client_id = a.client_id → d ≠ rec.2 →
      get_transaction_with_status m a i d =
        (.error ("Transaction #" ++ toString i ++ " not in desired state"),
          removeTx m i)) ∧
    (∀ j, j ≠ i → lookupTx (get_transaction_with_status m a i d).2 j = lookupTx m j) := by
  refine ⟨gtws_of_none m a i d, fun rec h hc => gtws_of_client_ne m a i d rec h hc,
    fun rec h hc hs => gtws_of_status_ne m a i d rec h hc hs, fun j hj => ?_⟩
  rcases gtws_snd_cases m a i d with hc | hc
  · rw [hc]
  · rw [hc, lookupTx_removeTx, if_neg hj]

theorem take_for_status_error_store_effect_witness :
    get_transaction_with_status [(2, (⟨.withdrawal, 5, 2, some 10⟩, .processed))]
        ⟨15, 15, 0, 15, false⟩ 2 .processed =
      (.error ("Transaction #" ++ toString 2 ++ " does not have matching client id"),
        removeTx [(2, (⟨.withdrawal, 5, 2, some 10⟩, .processed))] 2) ∧
    lookupTx (get_transaction_with_status [(2, (⟨.withdrawal, 5, 2, some 10⟩, .processed))]
        ⟨15, 15, 0, 15, false⟩ 2 .processed).2 9 =
      lookupTx [(2, (⟨.withdrawal, 5, 2, some 10⟩, .processed))] 9 :=
  ⟨(take_for_status_error_store_effect [(2, (⟨.withdrawal, 5, 2, some 10⟩, .processed))]
      ⟨15, 15, 0, 15, false⟩ 2 .processed).2.1 (⟨.withdrawal, 5, 2, some 10⟩, .processed)
      rfl (by decide),
    (take_for_status_error_store_effect [(2, (⟨.withdrawal, 5, 2, some 10⟩, .processed))]
      ⟨15, 15, 0, 15, false⟩ 2 .processed).2.2.2 9 (by decide)⟩

end RsBank
